import Mathlib

/-!
Verification of the scorm-lti-proxy trust and protocol layer.

A shallow embedding of the core algorithms of the scorm-lti-proxy server:
OAuth 1.0a base-string construction, signing and launch verification
(src/services/lti-provider.ts), SCORM manifest launch-path resolution,
the dispatch package generator (src/services/dispatch-generator.ts),
LTI Basic Outcomes grade passback and xAPI statement construction
(src/services/xapi-client.ts), the SCORM runtime commit/finish handlers and
the LTI launch handler's attempt establishment.

JS strings are modelled as `List Char`; JS numbers arising from SCORM CMI
values as an explicit `JsNum` type (rationals plus NaN and infinities);
fallible operations (a thrown exception) as `Option`/`Except`.
Node/browser builtins used by the source (`encodeURIComponent`, `new URL`,
`parseFloat`, `crypto`) are modelled where their behaviour is relied on, and
the cryptographic hash itself is a parameter of the signing functions.
-/

set_option maxRecDepth 100000
set_option maxHeartbeats 2000000

namespace ScormLti

/-- JS strings are modelled as lists of characters. -/
abbrev Str := List Char

/-- The character list of a Lean string literal. -/
def str (s : String) : Str := s.data

/-- The apostrophe character. -/
def apos : Char := Char.ofNat 39

/-- Uppercase hexadecimal digit character, as `toString(16).toUpperCase()` renders it. -/
def hexDigit (n : Nat) : Char :=
  if n < 10 then Char.ofNat (48 + n) else Char.ofNat (55 + n)

/-- UTF-8 byte sequence of a character (percent-encoding works on UTF-8 bytes). -/
def utf8Bytes (c : Char) : List Nat :=
  let n := c.toNat
  if n < 128 then [n]
  else if n < 2048 then [192 + n / 64, 128 + n % 64]
  else if n < 65536 then [224 + n / 4096, 128 + n / 64 % 64, 128 + n % 64]
  else [240 + n / 262144, 128 + n / 4096 % 64, 128 + n / 64 % 64, 128 + n % 64]

/-- Percent-escape of one byte, uppercase hex. -/
def percentByte (b : Nat) : Str := ['%', hexDigit (b / 16), hexDigit (b % 16)]

/-- Characters the JS builtin `encodeURIComponent` leaves unescaped:
`A-Z a-z 0-9 - _ . ! ~ * ' ( )`. -/
def uriUnreserved (c : Char) : Bool :=
  (65 ≤ c.toNat && c.toNat ≤ 90) || (97 ≤ c.toNat && c.toNat ≤ 122) ||
  (48 ≤ c.toNat && c.toNat ≤ 57) ||
  c == '-' || c == '_' || c == '.' || c == '!' || c == '~' || c == '*' ||
  c == apos || c == '(' || c == ')'

/-- Modelled from the JS builtin `encodeURIComponent` (the source calls the builtin):
unreserved characters pass through, everything else is percent-encoded bytewise. -/
def encodeURIComponent (l : Str) : Str :=
  l.flatMap fun c => if uriUnreserved c then [c] else (utf8Bytes c).flatMap percentByte

/-- The `replace(/[!'()*]/g, ...)` pass of `encodeRfc3986` in
src/services/lti-provider.ts, applied characterwise (the five targets are single
ASCII characters and never occur inside a `%XX` escape). -/
def strictChar (c : Char) : Str :=
  if c == '!' || c == apos || c == '(' || c == ')' || c == '*' then
    ['%', hexDigit (c.toNat / 16), hexDigit (c.toNat % 16)]
  else [c]

/-- Embedding of `encodeRfc3986` from src/services/lti-provider.ts: `encodeURIComponent` followed by
percent-escaping of `! ' ( ) *`. -/
def encodeRfc3986 (l : Str) : Str := (encodeURIComponent l).flatMap strictChar

/-- Decimal digit character. -/
def digitChar (d : Nat) : Char := Char.ofNat (48 + d)

/-- Decimal rendering of a natural number, as JS number-to-string conversion
produces for integers. -/
def natStr (n : Nat) : Str :=
  if n = 0 then [digitChar 0] else (Nat.digits 10 n).reverse.map digitChar

/-- Components of a parsed URL as exposed by the WHATWG `URL` class. -/
structure UrlParts where
  protocol : Str
  hostname : Str
  port : Option Nat
  pathname : Str
deriving DecidableEq

/-- Characters allowed in a URL scheme. -/
def isSchemeChar (c : Char) : Bool := c.isAlpha || c.isDigit || c == '+' || c == '-' || c == '.'

/-- Natural number denoted by a digit string. -/
def natFromDigits (l : Str) : Nat := l.foldl (fun a c => a * 10 + (c.toNat - 48)) 0

/-- Modelled from the WHATWG URL parser behind the Node builtin `new URL(url)` (the
source has no URL parser of its own): a simplified subset accepting
`scheme://host[:port][/path][?query][#fragment]`, lowercasing scheme and host and
dropping a default port.  Returns `none` where the builtin throws a `TypeError`:
missing `scheme://`, empty host, or a malformed/overflowing port. -/
def parseUrl (l : Str) : Option UrlParts :=
  match l with
  | [] => none
  | c :: _ =>
    if !c.isAlpha then none else
    let scheme := l.takeWhile isSchemeChar
    let rest := l.drop scheme.length
    match rest with
    | ':' :: '/' :: '/' :: rest2 =>
      let hostport := rest2.takeWhile fun c => !(c == '/' || c == '?' || c == '#')
      let after := rest2.drop hostport.length
      let path := after.takeWhile fun c => !(c == '?' || c == '#')
      if hostport = [] then none else
      let schemeL := scheme.map Char.toLower
      let host := hostport.takeWhile fun c => !(c == ':')
      let portDigits := hostport.drop (host.length + 1)
      if host = [] then none else
      let portParse : Option (Option Nat) :=
        if host.length = hostport.length then some none
        else if portDigits = [] then some none
        else if portDigits.all Char.isDigit then
          let p := natFromDigits portDigits
          if 65535 < p then none
          else if (schemeL = str "http" ∧ p = 80) ∨ (schemeL = str "https" ∧ p = 443) then
            some none
          else some (some p)
        else none
      match portParse with
      | none => none
      | some port =>
        some { protocol := schemeL ++ [':'],
               hostname := host.map Char.toLower,
               port := port,
               pathname := if path = [] then ['/'] else path }
    | _ => none

/-- Rendering of the `host` property: hostname plus `:port` when a port is present. -/
def hostStr (u : UrlParts) : Str :=
  u.hostname ++ (match u.port with | some p => ':' :: natStr p | none => [])

/-- Embedding of `normalizeUrl` from src/services/lti-provider.ts, acting on the parsed URL: clears
the port when it is the scheme default (80 for http, 443 for https — the WHATWG parser
already dropped it, the check is kept for fidelity to the source) and renders
`protocol//host/pathname`, discarding query string and fragment. -/
def normalizeUrl (u : UrlParts) : Str :=
  let u2 :=
    if (u.protocol = str "http:" ∧ u.port = some 80) ∨
       (u.protocol = str "https:" ∧ u.port = some 443)
    then { u with port := none } else u
  u2.protocol ++ str "//" ++ hostStr u2 ++ u2.pathname

/-- The `oauth_signature` parameter name. -/
def sigKey : Str := str "oauth_signature"

/-- Embedding of `buildBaseString` from src/services/lti-provider.ts: drop `oauth_signature`, sort
the remaining keys with the default JS string sort (lexicographic by code unit on the
raw keys), join `encoded(key)=encoded(value)` with `&`, and concatenate
`METHOD&encoded(normalizedUrl)&encoded(paramString)`.  `none` models the `new URL`
exception propagating out. -/
def buildBaseString (method url : Str) (params : List (Str × Str)) : Option Str :=
  match parseUrl url with
  | none => none
  | some u =>
    let filtered := params.filter fun p => decide (p.1 ≠ sigKey)
    let sortedKeys := List.insertionSort (· ≤ ·) (filtered.map Prod.fst)
    let paramString :=
      List.intercalate ['&'] (sortedKeys.map fun k =>
        encodeRfc3986 k ++ '=' :: encodeRfc3986 ((filtered.lookup k).getD []))
    some (List.intercalate ['&']
      [method.map Char.toUpper, encodeRfc3986 (normalizeUrl u), encodeRfc3986 paramString])

/-- Embedding of `signRequest` from src/services/lti-provider.ts.  The HMAC-SHA1/base64 digest of
the Node crypto builtin is the parameter `hmac` (signing key → message → digest); the
source contains no hash implementation of its own.  The signing key is
`encodeURIComponent(consumerSecret) + "&"` (empty token secret). -/
def signRequest (hmac : Str → Str → Str) (method url : Str) (params : List (Str × Str))
    (consumerSecret : Str) : Option Str :=
  (buildBaseString method url params).map fun baseString =>
    hmac (encodeURIComponent consumerSecret ++ ['&']) baseString

/-- Embedding of `validateLtiLaunch` from src/services/lti-provider.ts.  Returns `some false` when
`params.oauth_signature` is absent or empty (JS falsy), otherwise recomputes the
expected signature over method POST and compares.  `crypto.timingSafeEqual` wrapped in
the source's try/catch yields true exactly on byte-equal buffers and turns the
length-mismatch exception into false, so the observable comparison is string equality.
Returns `none` where the source throws: the URL parse inside `buildBaseString` sits
outside that try/catch. -/
def validateLtiLaunch (hmac : Str → Str → Str) (params : List (Str × Str))
    (consumerSecret url : Str) : Option Bool :=
  match params.lookup sigKey with
  | none => some false
  | some signature =>
    if signature = [] then some false
    else
      match buildBaseString (str "POST") url params with
      | none => none
      | some baseString =>
        let expected := hmac (encodeURIComponent consumerSecret ++ ['&']) baseString
        some (decide (signature = expected))

/-- Store a value under a key of a JS object map, keeping one binding per key. -/
def setParam (params : List (Str × Str)) (k v : Str) : List (Str × Str) :=
  (k, v) :: (params.filter fun p => decide (p.1 ≠ k))

/-- A concrete stand-in for the HMAC-SHA1/base64 digest, used only to instantiate the
hypotheses of the signing theorems on concrete inputs. -/
def hmacW (k m : Str) : Str := '#' :: (k ++ m)

/-- Concrete launch URL. -/
def urlW : Str := str "https://example.com/lti/launch"

/-- Concrete launch parameter map. -/
def paramsW : List (Str × Str) :=
  [(str "user_id", str "student7"), (str "oauth_consumer_key", str "key_abc")]

/-- Concrete consumer secret. -/
def secretW : Str := str "s3cr3t"

/-- The correct signature over the concrete inputs. -/
def sigW : Str := (signRequest hmacW (str "POST") urlW paramsW secretW).getD []

/-- A single-character mutation of `sigW` (position 0 changed). -/
def sigW2 : Str := '!' :: sigW.tail

/-- The parameter ordering as the spec words it: lexicographically by RFC 3986
percent-encoded key, then by encoded value. -/
def specKeyOrder (a b : Str × Str) : Prop :=
  encodeRfc3986 a.1 < encodeRfc3986 b.1 ∨
    (encodeRfc3986 a.1 = encodeRfc3986 b.1 ∧ encodeRfc3986 a.2 ≤ encodeRfc3986 b.2)

instance : DecidableRel specKeyOrder := fun a b => by
  unfold specKeyOrder
  infer_instance

/-- Base-string construction following the spec's words (only where it differs from
the source: pairs sorted by percent-encoded key, then encoded value). -/
def buildBaseStringSpecOrder (method url : Str) (params : List (Str × Str)) : Option Str :=
  match parseUrl url with
  | none => none
  | some u =>
    let filtered := params.filter fun p => decide (p.1 ≠ sigKey)
    let sortedPairs := List.insertionSort specKeyOrder filtered
    let paramString := List.intercalate ['&'] (sortedPairs.map fun p =>
      encodeRfc3986 p.1 ++ '=' :: encodeRfc3986 p.2)
    some (List.intercalate ['&']
      [method.map Char.toUpper, encodeRfc3986 (normalizeUrl u), encodeRfc3986 paramString])

/-! ## Manifest parser: launch-path resolution (src/services/lti-provider.ts bundle) -/

/-- The `ResourceData` record of the manifest parser. -/

structure ResourceData where
  identifier : Str
  type : Str
  href : Option Str
  scormType : Option Str
deriving DecidableEq

/-- The `ItemData` record of the manifest parser. -/
structure ItemData where
  identifier : Str
  title : Str
  resourceId : Option Str
deriving DecidableEq

/-- The `OrganizationData` record of the manifest parser. -/
structure OrganizationData where
  identifier : Str
  title : Str
  items : List ItemData
deriving DecidableEq

/-- JS truthiness of an optional string: present and nonempty. -/
def truthyStr : Option Str → Option Str
  | some (c :: cs) => some (c :: cs)
  | _ => none

/-- The `adlcp:scormtype === 'sco'` test of `findLaunchPath`:
`resource.scormType?.toLowerCase() === 'sco'`. -/
def isScoType (r : ResourceData) : Bool :=
  match r.scormType with
  | some t => t.map Char.toLower == str "sco"
  | none => false

/-- The inner item loop of `findLaunchPath`: first item with a (truthy)
`identifierref` whose referenced resource exists and has a truthy `href`. -/
def scanItems (resources : List ResourceData) : List ItemData → Option Str
  | [] => none
  | item :: rest =>
    match truthyStr item.resourceId with
    | some rid =>
      match resources.find? fun r => r.identifier == rid with
      | some r =>
        match truthyStr r.href with
        | some h => some h
        | none => scanItems resources rest
      | none => scanItems resources rest
    | none => scanItems resources rest

/-- The outer organization loop of `findLaunchPath`. -/
def scanOrgs (resources : List ResourceData) : List OrganizationData → Option Str
  | [] => none
  | org :: rest =>
    match scanItems resources org.items with
    | some h => some h
    | none => scanOrgs resources rest

/-- The first fallback loop of `findLaunchPath`: first resource with a truthy `href`
whose SCORM type is `sco` case-insensitively. -/
def scanScoResources : List ResourceData → Option Str
  | [] => none
  | r :: rest =>
    match truthyStr r.href with
    | some h => if isScoType r then some h else scanScoResources rest
    | none => scanScoResources rest

/-- Embedding of `findLaunchPath` from the manifest parser: organization items in document order,
then first `sco`-typed resource with an `href`, then first resource with an `href`,
then the literal `index.html`. -/
def findLaunchPath (organizations : List OrganizationData)
    (resources : List ResourceData) : Str :=
  match scanOrgs resources organizations with
  | some h => h
  | none =>
    match scanScoResources resources with
    | some h => h
    | none =>
      match resources.find? fun r => (truthyStr r.href).isSome with
      | some r => (truthyStr r.href).getD (str "index.html")
      | none => str "index.html"

/-- Launch href contributed by one item, as §4.2 of the spec words it. -/
def itemHrefSpec (resources : List ResourceData) (it : ItemData) : Option Str :=
  (truthyStr it.resourceId).bind fun rid =>
    (resources.find? fun r => r.identifier == rid).bind fun r => truthyStr r.href

/-- Launch-path resolution as §4.2 of the spec words it, by whole-list search:
first item (document order across organizations) whose referenced resource has an
href; else first `sco`-typed resource with an href; else first resource with an
href; else `index.html`. -/
def findLaunchPathSpec (organizations : List OrganizationData)
    (resources : List ResourceData) : Str :=
  (((organizations.flatMap OrganizationData.items).findSome? (itemHrefSpec resources)).or
    ((resources.findSome? fun r => if isScoType r then truthyStr r.href else none).or
      (resources.findSome? fun r => truthyStr r.href))).getD (str "index.html")

/-! ## Substring machinery (for statements about generated XML/HTML text) -/

/-- Boolean prefix test on character lists. -/

def isPre : Str → Str → Bool
  | [], _ => true
  | _ :: _, [] => false
  | a :: as, b :: bs => a == b && isPre as bs

/-- Number of start positions at which `pat` occurs in `l`. -/
def countOcc (pat l : Str) : Nat :=
  (List.range l.length).countP fun i => isPre pat (l.drop i)

/-- JS `String.includes`: `pat` occurs somewhere in `l`. -/
def containsSub (pat l : Str) : Bool :=
  (List.range (l.length + 1)).any fun i => isPre pat (l.drop i)

/-- No nonempty proper suffix of `A` shorter than `pat` is a prefix of `pat`: then an
occurrence of `pat` cannot straddle the boundary after `A`. -/
def noStraddle (pat A : Str) : Prop :=
  ∀ k, k < pat.length → 0 < k → k ≤ A.length → isPre (A.drop (A.length - k)) pat = false

instance (pat A : Str) : Decidable (noStraddle pat A) := by
  unfold noStraddle
  infer_instance

/-! ## Dispatch package generator (src/services/dispatch-generator.ts) -/

/-- One `String.prototype.replace(/c/g, rep)` pass for a single-character pattern. -/

def replaceAllChar (c : Char) (rep : Str) (l : Str) : Str :=
  l.flatMap fun x => if x == c then rep else [x]

/-- Embedding of `escapeXml` from src/services/dispatch-generator.ts (same helper appears in
src/services/xapi-client.ts): the source's five successive global replaces, innermost
first (`&`, `<`, `>`, `"`, `'`). -/
def escapeXml (l : Str) : Str :=
  replaceAllChar apos (str "&apos;")
    (replaceAllChar '"' (str "&quot;")
      (replaceAllChar '>' (str "&gt;")
        (replaceAllChar '<' (str "&lt;")
          (replaceAllChar '&' (str "&amp;") l))))

/-- Embedding of `escapeJs` from src/services/dispatch-generator.ts: the source's five successive
global replaces, innermost first (backslash, single quote, double quote, `\n`, `\r`). -/
def escapeJs (l : Str) : Str :=
  replaceAllChar (Char.ofNat 13) (str "\\r")
    (replaceAllChar (Char.ofNat 10) (str "\\n")
      (replaceAllChar '"' (str "\\\"")
        (replaceAllChar apos ('\\' :: [apos])
          (replaceAllChar '\\' (str "\\\\") l))))

/-- Manifest template up to the interpolated `dispatch_${Date.now()}` identifier. -/
def man1 : Str := str "<?xml version=\"1.0\" encoding=\"UTF-8\"?>\n<manifest identifier=\"dispatch_"

/-- Manifest template between the identifier and the first interpolated title. -/
def man2 : Str := str "\"\n          xmlns=\"http://www.imsproject.org/xsd/imscp_rootv1p1p2\"\n          xmlns:adlcp=\"http://www.adlnet.org/xsd/adlcp_rootv1p2\"\n          xmlns:xsi=\"http://www.w3.org/2001/XMLSchema-instance\"\n          xsi:schemaLocation=\"http://www.imsproject.org/xsd/imscp_rootv1p1p2 imscp_rootv1p1p2.xsd\n                              http://www.adlnet.org/xsd/adlcp_rootv1p2 adlcp_rootv1p2.xsd\">\n\n  <metadata>\n    <schema>ADL SCORM</schema>\n    <schemaversion>1.2</schemaversion>\n  </metadata>\n\n  <organizations default=\"org_1\">\n    <organization identifier=\"org_1\">\n      <title>"

/-- Manifest template between the two interpolated titles. -/
def man3 : Str := str "</title>\n      <item identifier=\"item_1\" identifierref=\"res_1\">\n        <title>"

/-- Manifest template after the second interpolated title (holds the resources
section with the single `launcher.html` resource). -/
def man4 : Str := str "</title>\n      </item>\n    </organization>\n  </organizations>\n\n  <resources>\n    <resource identifier=\"res_1\" type=\"webcontent\" adlcp:scormtype=\"sco\" href=\"launcher.html\">\n      <file href=\"launcher.html\"/>\n    </resource>\n  </resources>\n\n</manifest>"

/-- Embedding of `generateManifest` from src/services/dispatch-generator.ts: the SCORM 1.2
manifest template with `identifier=\"dispatch_${Date.now()}\"` (the time value is the
parameter `now`) and `safeTitle = escapeXml(courseTitle)` interpolated twice. -/
def generateManifest (now : Nat) (courseTitle : Str) : Str :=
  man1 ++ natStr now ++ man2 ++ escapeXml courseTitle ++ man3 ++
    escapeXml courseTitle ++ man4

/-- Launcher template before the interpolated launch URL (document head, CSS,
API-locator script, LMS initialization). -/
def lau1 : Str := str "<!DOCTYPE html>\n<html>\n<head>\n  <meta charset=\"UTF-8\">\n  <title>Loading Course...</title>\n  <style>\n    body \x7b\n      font-family: -apple-system, BlinkMacSystemFont, 'Segoe UI', Roboto, sans-serif;\n      display: flex;\n      justify-content: center;\n      align-items: center;\n      height: 100vh;\n      margin: 0;\n      background: #f5f5f5;\n    \x7d\n    .loading \x7b\n      text-align: center;\n    \x7d\n    .spinner \x7b\n      width: 40px;\n      height: 40px;\n      border: 4px solid #e0e0e0;\n      border-top-color: #3498db;\n      border-radius: 50%;\n      animation: spin 1s linear infinite;\n      margin: 0 auto 16px;\n    \x7d\n    @keyframes spin \x7b\n      to \x7b transform: rotate(360deg); \x7d\n    \x7d\n  </style>\n</head>\n<body>\n  <div class=\"loading\">\n    <div class=\"spinner\"></div>\n    <p>Loading course content...</p>\n  </div>\n\n  <script>\n    // Find the LMS API\n    function findAPI(win) \x7b\n      var attempts = 0;\n      while ((!win.API) && (win.parent) && (win.parent !== win) && (attempts < 10)) \x7b\n        attempts++;\n        win = win.parent;\n      \x7d\n      return win.API || null;\n    \x7d\n\n    function findAPI_1484_11(win) \x7b\n      var attempts = 0;\n      while ((!win.API_1484_11) && (win.parent) && (win.parent !== win) && (attempts < 10)) \x7b\n        attempts++;\n        win = win.parent;\n      \x7d\n      return win.API_1484_11 || null;\n    \x7d\n\n    // Store reference to LMS API\n    var lmsAPI = findAPI(window) || findAPI_1484_11(window);\n\n    // Initialize with LMS\n    if (lmsAPI) \x7b\n      if (lmsAPI.LMSInitialize) \x7b\n        lmsAPI.LMSInitialize('');\n      \x7d else if (lmsAPI.Initialize) \x7b\n        lmsAPI.Initialize('');\n      \x7d\n    \x7d\n\n    // Build launch URL with learner info\n    "

/-- Launcher template after the interpolated launch URL (student-id lookup, session
id, redirect, unload handler). -/
def lau2 : Str := str "\n\n    // Add user identifier if available from LMS\n    if (lmsAPI) \x7b\n      try \x7b\n        var studentId = lmsAPI.LMSGetValue ? lmsAPI.LMSGetValue('cmi.core.student_id') : null;\n        if (!studentId && lmsAPI.GetValue) \x7b\n          studentId = lmsAPI.GetValue('cmi.learner_id');\n        \x7d\n        if (studentId) \x7b\n          launchUrl += (launchUrl.indexOf('?') > -1 ? '&' : '?') + 'user_id=' + encodeURIComponent(studentId);\n        \x7d\n      \x7d catch (e) \x7b\n        console.log('Could not get student ID:', e);\n      \x7d\n    \x7d\n\n    // Add session identifier\n    launchUrl += (launchUrl.indexOf('?') > -1 ? '&' : '?') + 'session_id=' + Date.now();\n\n    // Redirect to hosted content\n    window.location.href = launchUrl;\n\n    // Cleanup on unload\n    window.onunload = function() \x7b\n      if (lmsAPI) \x7b\n        if (lmsAPI.LMSFinish) \x7b\n          lmsAPI.LMSFinish('');\n        \x7d else if (lmsAPI.Terminate) \x7b\n          lmsAPI.Terminate('');\n        \x7d\n      \x7d\n    \x7d;\n  </script>\n</body>\n</html>"

/-- Embedding of `generateLauncher` from src/services/dispatch-generator.ts: the launcher page
with `var launchUrl = '${escapeJs(launchUrl)}';` interpolated. -/
def generateLauncher (launchUrl : Str) : Str :=
  lau1 ++ (str "var launchUrl = " ++ [apos] ++ escapeJs launchUrl ++ [apos, ';']) ++ lau2

/-- Embedding of `generateDispatchPackage` from src/services/dispatch-generator.ts: the produced
archive modelled as its entry list (name, content) in insertion order — the zip
container itself is the external AdmZip library. -/
def generateDispatchPackage (now : Nat) (courseTitle launchUrl : Str) :
    List (Str × Str) :=
  [(str "imsmanifest.xml", generateManifest now courseTitle),
   (str "launcher.html", generateLauncher launchUrl)]

/-! ## Grade passback via LTI Basic Outcomes (src/services/xapi-client.ts bundle) -/

/-- The clamp `Math.max(0, Math.min(1, score))` of `buildReplaceResultXml`. -/

def clamp01 (q : ℚ) : ℚ := max 0 (min 1 q)

/-- Modelled from the JS builtin `Number.prototype.toFixed(2)` for nonnegative finite
values (the source always applies it to the clamped score in [0,1]): the integer `n`
closest to `q * 100` with ties to the larger `n` (round half up for nonnegative
input), rendered with two decimal digits. -/
def jsToFixed2 (q : ℚ) : Str :=
  let n := (⌊q * 100 + 1 / 2⌋).toNat
  natStr (n / 100) ++ '.' :: [digitChar (n / 10 % 10), digitChar (n % 10)]

/-- POX template up to the interpolated message identifier. -/
def pox1 : Str := str "<?xml version=\"1.0\" encoding=\"UTF-8\"?>\n<imsx_POXEnvelopeRequest xmlns=\"http://www.imsglobal.org/services/ltiv1p1/xsd/imsoms_v1p0\">\n  <imsx_POXHeader>\n    <imsx_POXRequestHeaderInfo>\n      <imsx_version>V1.0</imsx_version>\n      <imsx_messageIdentifier>"

/-- POX template between message identifier and sourced id. -/
def pox2 : Str := str "</imsx_messageIdentifier>\n    </imsx_POXRequestHeaderInfo>\n  </imsx_POXHeader>\n  <imsx_POXBody>\n    <replaceResultRequest>\n      <resultRecord>\n        <sourcedGUID>\n          <sourcedId>"

/-- POX template between sourced id and the result text string. -/
def pox3 : Str := str "</sourcedId>\n        </sourcedGUID>\n        <result>\n          <resultScore>\n            <language>en</language>\n            "

/-- POX template after the result text string. -/
def pox4 : Str := str "\n          </resultScore>\n        </result>\n      </resultRecord>\n    </replaceResultRequest>\n  </imsx_POXBody>\n</imsx_POXEnvelopeRequest>"

/-- The literal success code marker `sendGradeToLms` looks for in the response body. -/
def successMarker : Str := str "<imsx_codeMajor>success</imsx_codeMajor>"

/-- The response handling of `sendGradeToLms`: `if (!response.ok) throw` (ok is HTTP
status 200-299), then `if (!responseXml.includes(marker)) throw`, else success. -/
def gradePassbackOutcome (status : Nat) (body : Str) : Except Str Unit :=
  if ¬(200 ≤ status ∧ status ≤ 299) then Except.error (str "Grade passback failed")
  else if containsSub successMarker body = false then
    Except.error (str "Grade passback rejected")
  else Except.ok ()

/-- Whether an `Except` outcome is a success. -/
def isOkB : Except Str Unit → Bool
  | .ok _ => true
  | .error _ => false

/-! ## SCORM runtime commit/finish (scorm-api router, src bundle part with
`scormApiRouter`) -/

/-- A JS number as produced by `parseFloat` and arithmetic on its results:
a rational, NaN, or a signed infinity. -/

inductive JsNum where
  | nan
  | posInf
  | negInf
  | num (q : ℚ)
deriving DecidableEq

/-- Modelled from the JS builtin `parseFloat` (the source calls the builtin): leading
whitespace skipped, optional sign, decimal digits with optional fractional part,
trailing garbage ignored; NaN when no digits can be read.  (Exponents and `Infinity`
literals are not modelled; no CMI value in the claims uses them.) -/
def parseFloat (s : Str) : JsNum :=
  let s1 := s.dropWhile fun c =>
    c == ' ' || c == Char.ofNat 9 || c == Char.ofNat 10 || c == Char.ofNat 13
  let signNeg : Bool := match s1 with | '-' :: _ => true | _ => false
  let s2 := match s1 with
    | '-' :: r => r
    | '+' :: r => r
    | r => r
  let intDigits := s2.takeWhile Char.isDigit
  let s3 := s2.drop intDigits.length
  let fracDigits := match s3 with
    | '.' :: r => r.takeWhile Char.isDigit
    | _ => []
  if intDigits = [] ∧ fracDigits = [] then JsNum.nan
  else
    let denom : Nat := 10 ^ fracDigits.length
    let v : ℚ := mkRat (natFromDigits intDigits * denom + natFromDigits fracDigits) denom
    JsNum.num (if signNeg then -v else v)

/-- JS division on modelled numbers (NaN propagates; finite/0 follows IEEE sign
rules, with the `-0` subtlety immaterial here). -/
def jsDiv : JsNum → JsNum → JsNum
  | JsNum.nan, _ => JsNum.nan
  | _, JsNum.nan => JsNum.nan
  | JsNum.num a, JsNum.num b =>
    if b = 0 then
      if a = 0 then JsNum.nan
      else if 0 < a then JsNum.posInf else JsNum.negInf
    else JsNum.num (a / b)
  | JsNum.posInf, JsNum.num b => if 0 ≤ b then JsNum.posInf else JsNum.negInf
  | JsNum.negInf, JsNum.num b => if 0 ≤ b then JsNum.negInf else JsNum.posInf
  | JsNum.num _, JsNum.posInf => JsNum.num 0
  | JsNum.num _, JsNum.negInf => JsNum.num 0
  | JsNum.posInf, JsNum.posInf => JsNum.nan
  | JsNum.posInf, JsNum.negInf => JsNum.nan
  | JsNum.negInf, JsNum.posInf => JsNum.nan
  | JsNum.negInf, JsNum.negInf => JsNum.nan

/-- Multiplication by the literal 100 (`normalizedScore * 100`, `score * 100`). -/
def jsMul100 : JsNum → JsNum
  | JsNum.nan => JsNum.nan
  | JsNum.posInf => JsNum.posInf
  | JsNum.negInf => JsNum.negInf
  | JsNum.num q => JsNum.num (q * 100)

/-- JS `Math.round` (half toward positive infinity) on modelled numbers. -/
def jsRound : JsNum → JsNum
  | JsNum.num q => JsNum.num ((⌊q + 1 / 2⌋ : ℤ) : ℚ)
  | x => x

/-- JS `Math.min(1, x)` on modelled numbers (NaN propagates). -/
def jsMin1 : JsNum → JsNum
  | JsNum.nan => JsNum.nan
  | JsNum.posInf => JsNum.num 1
  | JsNum.negInf => JsNum.negInf
  | JsNum.num q => JsNum.num (min 1 q)

/-- JS `Math.max(0, x)` on modelled numbers (NaN propagates). -/
def jsMax0 : JsNum → JsNum
  | JsNum.nan => JsNum.nan
  | JsNum.posInf => JsNum.posInf
  | JsNum.negInf => JsNum.num 0
  | JsNum.num q => JsNum.num (max 0 q)

/-- The clamp `Math.max(0, Math.min(1, score))` of `buildReplaceResultXml` on a JS
number: NaN stays NaN, every other value lands in [0,1]. -/
def jsClamp01 (x : JsNum) : JsNum := jsMax0 (jsMin1 x)

/-- JS `Number.prototype.toFixed(2)` on a modelled number: the literal `NaN` for
NaN, `Infinity`/`-Infinity` for the infinities (unreachable after the clamp), and
the two-decimal rendering for a number. -/
def jsToFixed2N : JsNum → Str
  | JsNum.nan => str "NaN"
  | JsNum.posInf => str "Infinity"
  | JsNum.negInf => '-' :: str "Infinity"
  | JsNum.num q => jsToFixed2 q

/-- Embedding of `buildReplaceResultXml` from the LTI outcomes service: the POX
envelope with the XML-escaped message identifier and sourced id and
`<textString>${clampedScore.toFixed(2)}</textString>` interpolated.  The score is a
JS number: the commit handler passes the raw normalized score, which can be NaN
(only `!== null` is checked), and the clamp propagates NaN into the text string. -/
def buildReplaceResultXml (sourcedid : Str) (score : JsNum) (messageId : Str) : Str :=
  pox1 ++ escapeXml messageId ++ pox2 ++ escapeXml sourcedid ++ pox3 ++
    (str "<textString>" ++ jsToFixed2N (jsClamp01 score) ++ str "</textString>") ++ pox4

/-- The CMI fields the commit handler reads from the request body (an opaque map of
CMI keys to strings; absent keys are `none`). -/
structure CmiData where
  lessonStatus : Option Str
  scoreRaw : Option Str
  scoreMax : Option Str
  totalTime : Option Str
deriving DecidableEq

/-- Default rule `cmiData['cmi.core.score.max'] || '100'` (the default also applies to a present
but empty, JS-falsy, value). -/
def commitScoreMax (cmi : CmiData) : Str :=
  match truthyStr cmi.scoreMax with
  | some m => m
  | none => str "100"

/-- The `normalizedScore` value: stays null exactly when `cmi.core.score.raw` is absent (the
defaulted scoreMax is always truthy), otherwise `parseFloat(raw)/parseFloat(max)` —
including NaN for non-numeric strings. -/
def commitNormalizedScore (cmi : CmiData) : Option JsNum :=
  match cmi.scoreRaw with
  | none => none
  | some raw => some (jsDiv (parseFloat raw) (parseFloat (commitScoreMax cmi)))

/-- The score column written by the commit UPDATE:
`normalizedScore !== null ? normalizedScore * 100 : null`. -/
def commitPersistedScore (cmi : CmiData) : Option JsNum :=
  (commitNormalizedScore cmi).map jsMul100

/-- The `completionStatus` derivation of the commit handler (`lessonStatus` is read
through JS truthiness: an empty string keeps the default). -/
def commitCompletionStatus (cmi : CmiData) : Str :=
  match truthyStr cmi.lessonStatus with
  | some ls =>
    if ls = str "completed" ∨ ls = str "passed" then str "completed"
    else str "incomplete"
  | none => str "incomplete"

/-- The `successStatus` derivation of the commit handler. -/
def commitSuccessStatus (cmi : CmiData) : Option Str :=
  match truthyStr cmi.lessonStatus with
  | some ls =>
    if ls = str "passed" then some (str "passed")
    else if ls = str "failed" then some (str "failed")
    else none
  | none => none

/-- A CMI payload with a present but non-numeric raw score. -/
def cmiBadScore : CmiData :=
  { lessonStatus := none, scoreRaw := some (str "abc"),
    scoreMax := some (str "100"), totalTime := none }

/-- The spec's round-trip commit payload: raw 80, max 100, lesson status passed. -/
def cmi80 : CmiData :=
  { lessonStatus := some (str "passed"), scoreRaw := some (str "80"),
    scoreMax := some (str "100"), totalTime := none }

/-- A `launches` row (the fields the modelled handlers read or write;
`launchDataType` is the `type` marker inside the captured `launch_data` payload,
`some "dispatch"` for dispatch launches and absent for LTI launches). -/
structure LaunchRec where
  id : Str
  consumerId : Str
  courseId : Str
  userId : Str
  contextId : Option Str
  resourceLinkId : Option Str
  outcomeServiceUrl : Option Str
  resultSourcedid : Option Str
  launchDataType : Option Str
deriving DecidableEq

/-- An `attempts` row (the fields the modelled handlers read or write). -/
structure AttemptRec where
  id : Str
  launchId : Str
  cmi : Option CmiData
  score : Option JsNum
  completionStatus : Option Str
  successStatus : Option Str
  totalTime : Option Str
  finished : Bool
deriving DecidableEq

/-- The two tables the modelled handlers touch.  Rows are kept newest first (every
INSERT conses at the head), so a first match models `ORDER BY started_at DESC
LIMIT 1`. -/
structure Db where
  launches : List LaunchRec
  attempts : List AttemptRec
deriving DecidableEq

/-- The `XapiStatementData` record of src/services/xapi-client.ts. -/
structure XapiStatementData where
  verb : Str
  score : Option JsNum
  success : Option Bool
  duration : Option Str
deriving DecidableEq

/-- The responses the modelled handlers produce. -/
inductive ApiResponse where
  | jsonSuccess
  | jsonError (status : Nat) (msg : Str)
  | redirect (location : Str)
deriving DecidableEq

/-- Result of one commit request: updated tables, HTTP response, and the payloads
handed to the two best-effort reporters. -/
structure CommitResult where
  db : Db
  response : ApiResponse
  xapiSent : List XapiStatementData
  gradeSent : List JsNum
deriving DecidableEq

/-- The commit UPDATE: rewrites the row whose id matches (zero rows silently when the
attempt id is unknown — the source has no existence check). -/
def commitUpdate (cmi : CmiData) (attemptId : Str) (attempts : List AttemptRec) :
    List AttemptRec :=
  attempts.map fun a =>
    if a.id = attemptId then
      { a with cmi := some cmi,
               score := commitPersistedScore cmi,
               completionStatus := some (commitCompletionStatus cmi),
               successStatus := commitSuccessStatus cmi,
               totalTime := cmi.totalTime }
    else a

/-- The commit handler's launch lookup:
`SELECT l.* FROM launches l JOIN attempts a ON a.launch_id = l.id WHERE a.id = $1`. -/
def commitLaunch (db : Db) (attemptId : Str) (cmi : CmiData) : Option LaunchRec :=
  ((commitUpdate cmi attemptId db.attempts).find? fun a => decide (a.id = attemptId)).bind
    fun a => db.launches.find? fun l => decide (l.id = a.launchId)

/-- The scores handed to `sendGradeToLms`: only when the launch has truthy outcome
service URL and sourced id and a normalized score was computed (NaN included: the
code only checks `!== null`). -/
def commitGradeSent (db : Db) (attemptId : Str) (cmi : CmiData) : List JsNum :=
  match commitLaunch db attemptId cmi with
  | some l =>
    match truthyStr l.outcomeServiceUrl, truthyStr l.resultSourcedid,
        commitNormalizedScore cmi with
    | some _, some _, some sc => [sc]
    | _, _, _ => []
  | none => []

/-- The xAPI payload the commit handler builds for a dispatch-typed launch. -/
def commitXapiData (cmi : CmiData) : XapiStatementData :=
  { verb := if commitCompletionStatus cmi = str "completed" then str "completed"
            else str "progressed",
    score := commitNormalizedScore cmi,
    success := some (decide (commitSuccessStatus cmi = some (str "passed"))),
    duration := none }

/-- The statements handed to `sendXapiStatement`: exactly one, for a dispatch-typed
launch. -/
def commitXapiSent (db : Db) (attemptId : Str) (cmi : CmiData) :
    List XapiStatementData :=
  match commitLaunch db attemptId cmi with
  | some l =>
    if l.launchDataType = some (str "dispatch") then [commitXapiData cmi] else []
  | none => []

/-- The commit handler POST `/api/scorm/attempt/:attemptId/commit`: updates the
attempt row, fires the two best-effort reporters, and always responds
`{success: true}` (even when no attempt row matched). -/
def commitHandler (db : Db) (attemptId : Str) (cmi : CmiData) : CommitResult :=
  { db := { db with attempts := commitUpdate cmi attemptId db.attempts },
    response := ApiResponse.jsonSuccess,
    xapiSent := commitXapiSent db attemptId cmi,
    gradeSent := commitGradeSent db attemptId cmi }

/-- The finish handler POST `/api/scorm/attempt/:attemptId/finish`: stamps
`finished_at` on the matching row (zero rows silently when unknown) and responds
`{success: true}`. -/
def finishHandler (db : Db) (attemptId : Str) : Db × ApiResponse :=
  ({ db with attempts := db.attempts.map fun a =>
      if a.id = attemptId then { a with finished := true } else a },
   ApiResponse.jsonSuccess)

/-- GET `/api/scorm/attempt/:attemptId`: 404 with a JSON error payload when the
attempt does not exist (included to witness the error model the other runtime
endpoints follow). -/
def getAttemptHandler (db : Db) (attemptId : Str) : ApiResponse :=
  match db.attempts.find? fun a => decide (a.id = attemptId) with
  | some _ => ApiResponse.jsonSuccess
  | none => ApiResponse.jsonError 404 (str "Attempt not found")

/-- An empty CMI payload. -/
def cmiEmpty : CmiData := ⟨none, none, none, none⟩

/-- The `result` object of an xAPI statement (`score.min`/`score.max` are the
constants 0 and 100 in the source and are omitted). -/
structure XapiResult where
  scoreScaled : Option JsNum
  scoreRaw : Option JsNum
  success : Option Bool
  completion : Option Bool
  duration : Option Str
deriving DecidableEq

/-- The result object with no fields set. -/
def emptyXapiResult : XapiResult := ⟨none, none, none, none, none⟩

/-- The conditional result assembly of `buildStatement`
(src/services/xapi-client.ts, lines 176–202): score branch (skipped for
undefined/null, taken for NaN), success branch (`data.success !== undefined`),
`completion = true` for verb `completed`, duration branch (JS truthiness).
`none` models a statement with no `result` member at all. -/
def buildStatementResult (d : XapiStatementData) : Option XapiResult :=
  let r1 : Option XapiResult :=
    match d.score with
    | some s => some { emptyXapiResult with
        scoreScaled := some s, scoreRaw := some (jsRound (jsMul100 s)) }
    | none => none
  let r2 : Option XapiResult :=
    match d.success with
    | some b => some { r1.getD emptyXapiResult with success := some b }
    | none => r1
  let r3 : Option XapiResult :=
    if d.verb = str "completed" then
      some { r2.getD emptyXapiResult with completion := some true }
    else r2
  match truthyStr d.duration with
  | some dur => some { r3.getD emptyXapiResult with duration := some dur }
  | none => r3

/-- A dispatch-typed launch row for the C10 witness. -/
def launchD : LaunchRec :=
  { id := str "L1", consumerId := str "C1", courseId := str "K1", userId := str "u1",
    contextId := none, resourceLinkId := none, outcomeServiceUrl := none,
    resultSourcedid := none, launchDataType := some (str "dispatch") }

/-- An open attempt under `launchD` for the C10 witness. -/
def attemptD : AttemptRec :=
  { id := str "A1", launchId := str "L1", cmi := none, score := none,
    completionStatus := none, successStatus := none, totalTime := none,
    finished := false }

/-- Database with one dispatch launch and one attempt. -/
def dbD : Db := ⟨[launchD], [attemptD]⟩

/-! ## LTI launch handler: attempt establishment (lti router) -/

/-- The open-attempt predicate of the launch handler's reuse query: unfinished, and
the owning launch (joined by `launch_id`) matches learner and course. -/

def openPred (launches : List LaunchRec) (userId courseId : Str)
    (a : AttemptRec) : Bool :=
  !a.finished &&
    match launches.find? fun l => decide (l.id = a.launchId) with
    | some l => decide (l.userId = userId) && decide (l.courseId = courseId)
    | none => false

/-- The reuse query of the launch handler: most recent unfinished attempt of
(learner, course) — rows are newest first, so the first match. -/
def findOpenAttempt (db : Db) (userId courseId : Str) : Option AttemptRec :=
  db.attempts.find? (openPred db.launches userId courseId)

/-- All open attempts of a (learner, course) pair. -/
def openAttempts (db : Db) (userId courseId : Str) : List AttemptRec :=
  db.attempts.filter (openPred db.launches userId courseId)

/-- The Launch row the handler inserts (the captured LTI payload carries no `type`
marker). -/
def newLaunchRec (consumerId courseId userId : Str)
    (contextId resourceLinkId outcomeServiceUrl resultSourcedid : Option Str)
    (newLaunchId : Str) : LaunchRec :=
  { id := newLaunchId, consumerId := consumerId, courseId := courseId,
    userId := userId, contextId := contextId, resourceLinkId := resourceLinkId,
    outcomeServiceUrl := outcomeServiceUrl, resultSourcedid := resultSourcedid,
    launchDataType := none }

/-- The fresh Attempt row inserted when no open attempt exists. -/
def newAttemptRec (newAttemptId newLaunchId : Str) : AttemptRec :=
  { id := newAttemptId, launchId := newLaunchId, cmi := none, score := none,
    completionStatus := none, successStatus := none, totalTime := none,
    finished := false }

/-- Embedding of `ltiRouter POST /launch`, attempt-establishment phase (after signature
validation and course resolution): the handler first inserts a new Launch row
unconditionally, then reuses the most recent open attempt of (userId, courseId) if
one exists, otherwise inserts a new Attempt under the new launch.  Returns the new
state and the attempt id placed in the player redirect. -/
def ltiLaunchAttemptPhase (db : Db) (consumerId courseId userId : Str)
    (contextId resourceLinkId outcomeServiceUrl resultSourcedid : Option Str)
    (newLaunchId newAttemptId : Str) : Db × Str :=
  let nl := newLaunchRec consumerId courseId userId contextId resourceLinkId
    outcomeServiceUrl resultSourcedid newLaunchId
  let db1 : Db := { db with launches := nl :: db.launches }
  match findOpenAttempt db1 userId courseId with
  | some a => (db1, a.id)
  | none =>
    ({ db1 with attempts := newAttemptRec newAttemptId newLaunchId :: db1.attempts },
     newAttemptId)

/-- An LTI launch row for (u1, K1) used in the C4 counterexample. -/
def launchL : LaunchRec :=
  { id := str "L1", consumerId := str "C1", courseId := str "K1", userId := str "u1",
    contextId := none, resourceLinkId := none, outcomeServiceUrl := none,
    resultSourcedid := none, launchDataType := none }

/-- An open attempt under `launchL`. -/
def attemptL : AttemptRec :=
  { id := str "A1", launchId := str "L1", cmi := none, score := none,
    completionStatus := none, successStatus := none, totalTime := none,
    finished := false }

/-- Database with one launch and one open attempt for (u1, K1). -/
def dbL : Db := ⟨[launchL], [attemptL]⟩

theorem filter_ne_setParam (params : List (Str × Str)) (k v : Str) :
    ((setParam params k v).filter fun p => decide (p.1 ≠ k)) =
      params.filter fun p => decide (p.1 ≠ k) := by
  unfold setParam
  rw [List.filter_cons_of_neg (by simp), List.filter_filter]
  exact List.filter_congr fun p _ => by simp

theorem buildBaseString_setParam (m u : Str) (params : List (Str × Str)) (v : Str) :
    buildBaseString m u (setParam params sigKey v) = buildBaseString m u params := by
  unfold buildBaseString
  simp only [filter_ne_setParam]

theorem lookup_setParam (params : List (Str × Str)) (k v : Str) :
    (setParam params k v).lookup k = some v := by
  simp [setParam, List.lookup]

/-- C1: signing a parameter map with `signRequest` (method POST, same URL), storing the
result under `oauth_signature` and verifying with `validateLtiLaunch` against the same
secret and URL yields true; and any same-length map value differing from that correct
signature at some position (in particular any single-character mutation) makes
`validateLtiLaunch` yield false.  `hmac` abstracts the HMAC-SHA1/base64 builtin; its
28-character base64 output is never empty, which is the nonemptiness hypothesis. -/
theorem lti_sign_verify_roundtrip
    (hmac : Str → Str → Str) (params : List (Str × Str)) (secret url sig : Str)
    (hsig : signRequest hmac (str "POST") url params secret = some sig)
    (hne : sig ≠ []) :
    validateLtiLaunch hmac (setParam params sigKey sig) secret url = some true ∧
    ∀ sig2 : Str, sig2.length = sig.length → (∃ i, i < sig.length ∧ sig2[i]? ≠ sig[i]?) →
      validateLtiLaunch hmac (setParam params sigKey sig2) secret url = some false := by
  unfold signRequest at hsig
  obtain ⟨b, hb, hsig'⟩ := Option.map_eq_some'.mp hsig
  constructor
  · simp only [validateLtiLaunch, lookup_setParam, buildBaseString_setParam, hb,
      if_neg hne, hsig']
    simp
  · intro sig2 hlen ⟨i, hi, hdiff⟩
    have h2ne : sig2 ≠ [] := by
      intro h
      rw [h] at hlen
      exact hne (List.length_eq_zero.mp hlen.symm)
    have hneq : sig2 ≠ sig := by
      intro h
      exact hdiff (by rw [h])
    simp only [validateLtiLaunch, lookup_setParam, buildBaseString_setParam, hb,
      if_neg h2ne, hsig']
    simp [hneq]

theorem lti_sign_verify_roundtrip_witness :
    validateLtiLaunch hmacW (setParam paramsW sigKey sigW) secretW urlW = some true ∧
    validateLtiLaunch hmacW (setParam paramsW sigKey sigW2) secretW urlW = some false := by
  have h := lti_sign_verify_roundtrip hmacW paramsW secretW urlW sigW (by decide) (by decide)
  exact ⟨h.1, h.2 sigW2 (by decide) ⟨0, by decide, by decide⟩⟩

/-- C2 (amended): `validateLtiLaunch` fails closed on an absent (or empty, JS-falsy)
`oauth_signature` even for a malformed URL; it is total (returns a boolean) whenever
the URL parses; but with a nonempty signature present and an unparseable URL it
propagates the `new URL` exception (the parse sits outside the try/catch) instead of
returning false. -/
theorem validateLtiLaunch_fail_closed_behavior
    (hmac : Str → Str → Str) (params : List (Str × Str)) (secret url : Str) :
    (params.lookup sigKey = none → validateLtiLaunch hmac params secret url = some false) ∧
    (∀ s, params.lookup sigKey = some s → s = [] →
      validateLtiLaunch hmac params secret url = some false) ∧
    (∀ s, params.lookup sigKey = some s → s ≠ [] → parseUrl url = none →
      validateLtiLaunch hmac params secret url = none) ∧
    (parseUrl url ≠ none → ∃ b, validateLtiLaunch hmac params secret url = some b) := by
  refine ⟨fun h => ?_, fun s hs hse => ?_, fun s hs hsne hurl => ?_, fun hurl => ?_⟩
  · simp only [validateLtiLaunch, h]
  · simp only [validateLtiLaunch, hs]
    rw [if_pos hse]
  · simp only [validateLtiLaunch, hs, if_neg hsne, buildBaseString, hurl]
  · obtain ⟨u, hu⟩ := Option.ne_none_iff_exists'.mp hurl
    cases hl : params.lookup sigKey with
    | none => exact ⟨false, by simp [validateLtiLaunch, hl]⟩
    | some s =>
      by_cases hse : s = []
      · exact ⟨false, by simp [validateLtiLaunch, hl, hse]⟩
      · have hbs : ∃ bs, buildBaseString (str "POST") url params = some bs := by
          unfold buildBaseString
          rw [hu]
          exact ⟨_, rfl⟩
        obtain ⟨bs, hbs⟩ := hbs
        exact ⟨decide (s = hmac (encodeURIComponent secret ++ ['&']) bs),
          by simp [validateLtiLaunch, hl, if_neg hse, hbs]⟩

/-- C2 counterexample: with `oauth_signature` present and a malformed URL, the claim
says `validateLtiLaunch` returns false; instead the `new URL` call throws (modelled as
`none`, i.e. no boolean is returned). -/
theorem validateLtiLaunch_malformed_url_throws :
    validateLtiLaunch hmacW [(sigKey, str "x")] secretW (str "not a url") = none := by
  decide

theorem validateLtiLaunch_fail_closed_behavior_witness :
    validateLtiLaunch hmacW [] secretW urlW = some false ∧
    validateLtiLaunch hmacW [(sigKey, [])] secretW (str "not a url") = some false ∧
    validateLtiLaunch hmacW [(sigKey, str "x")] secretW (str "not a url") = none ∧
    ∃ b, validateLtiLaunch hmacW [(sigKey, str "x")] secretW urlW = some b := by
  refine ⟨(validateLtiLaunch_fail_closed_behavior hmacW [] secretW urlW).1 (by decide),
    (validateLtiLaunch_fail_closed_behavior hmacW [(sigKey, [])] secretW
      (str "not a url")).2.1 [] (by decide) rfl,
    (validateLtiLaunch_fail_closed_behavior hmacW [(sigKey, str "x")] secretW
      (str "not a url")).2.2.1 (str "x") (by decide) (by decide) (by decide),
    (validateLtiLaunch_fail_closed_behavior hmacW [(sigKey, str "x")] secretW urlW).2.2.2
      (by decide)⟩

theorem lookup_eq_of_perm {α β : Type} [BEq α] [LawfulBEq α] {l1 l2 : List (α × β)}
    (h : l1.Perm l2) :
    (l1.map Prod.fst).Nodup → ∀ k, l1.lookup k = l2.lookup k := by
  induction h with
  | nil => exact fun _ _ => rfl
  | cons x h ih =>
    intro hnd k
    obtain ⟨xk, xv⟩ := x
    simp only [List.map_cons, List.nodup_cons] at hnd
    simp only [List.lookup]
    cases hk : k == xk
    · exact ih hnd.2 k
    · rfl
  | swap x y l =>
    intro hnd k
    obtain ⟨xk, xv⟩ := x
    obtain ⟨yk, yv⟩ := y
    have hne : yk ≠ xk := by
      simp only [List.map_cons, List.nodup_cons, List.mem_cons] at hnd
      exact fun he => hnd.1 (Or.inl he)
    simp only [List.lookup]
    cases hky : k == yk <;> cases hkx : k == xk <;> simp only []
    exact absurd ((eq_of_beq hky).symm.trans (eq_of_beq hkx)) hne
  | trans h1 h2 ih1 ih2 =>
    intro hnd k
    rw [ih1 hnd k, ih2 ((h1.map Prod.fst).nodup_iff.mp hnd) k]

/-- C3 (amended): `buildBaseString` excludes `oauth_signature` and orders the remaining
parameters lexicographically by their raw (unencoded) key — not by percent-encoded
key — so for every pair of parameter maps holding the same key/value bindings in
different insertion orders, the base string and the signature are identical. -/
theorem buildBaseString_insertion_order_independent
    (method url : Str) (p1 p2 : List (Str × Str)) (hperm : p1.Perm p2)
    (hnd : (p1.map Prod.fst).Nodup) :
    buildBaseString method url p1 = buildBaseString method url p2 ∧
    ∀ (hmac : Str → Str → Str) (secret : Str),
      signRequest hmac method url p1 secret = signRequest hmac method url p2 secret := by
  have hf : (p1.filter fun p => decide (p.1 ≠ sigKey)).Perm
      (p2.filter fun p => decide (p.1 ≠ sigKey)) := hperm.filter _
  have hfnd : ((p1.filter fun p => decide (p.1 ≠ sigKey)).map Prod.fst).Nodup :=
    ((List.filter_sublist _).map Prod.fst).nodup hnd
  have hkeys : List.insertionSort (· ≤ ·)
        ((p1.filter fun p => decide (p.1 ≠ sigKey)).map Prod.fst) =
      List.insertionSort (· ≤ ·)
        ((p2.filter fun p => decide (p.1 ≠ sigKey)).map Prod.fst) := by
    have hp : (List.insertionSort (· ≤ ·)
          ((p1.filter fun p => decide (p.1 ≠ sigKey)).map Prod.fst)).Perm
        (List.insertionSort (· ≤ ·)
          ((p2.filter fun p => decide (p.1 ≠ sigKey)).map Prod.fst)) :=
      (List.perm_insertionSort _ _).trans
        ((hf.map Prod.fst).trans (List.perm_insertionSort _ _).symm)
    exact List.eq_of_perm_of_sorted hp
      (List.sorted_insertionSort _ _) (List.sorted_insertionSort _ _)
  have hlook := lookup_eq_of_perm hf hfnd
  have hbb : buildBaseString method url p1 = buildBaseString method url p2 := by
    unfold buildBaseString
    cases parseUrl url with
    | none => rfl
    | some u => simp only [hkeys, hlook]
  exact ⟨hbb, fun hmac secret => by unfold signRequest; rw [hbb]⟩

theorem buildBaseString_insertion_order_independent_witness :
    buildBaseString (str "POST") urlW [(str "a", str "1"), (str "b", str "2")] =
      buildBaseString (str "POST") urlW [(str "b", str "2"), (str "a", str "1")] :=
  (buildBaseString_insertion_order_independent (str "POST") urlW
    [(str "a", str "1"), (str "b", str "2")] [(str "b", str "2"), (str "a", str "1")]
    (by decide) (by decide)).1

/-- C3 counterexample: with keys `A` and `[`, raw-key order (the code sorts the raw
keys) puts `A=x` first, while the claim's percent-encoded-key order puts `%5B=y`
first, so the produced base string is not the one the claim describes. -/
theorem buildBaseString_not_encoded_key_order :
    buildBaseString (str "POST") urlW [(str "A", str "x"), (str "[", str "y")] ≠
      buildBaseStringSpecOrder (str "POST") urlW [(str "A", str "x"), (str "[", str "y")] := by
  decide

theorem scanItems_eq (resources : List ResourceData) (items : List ItemData) :
    scanItems resources items = items.findSome? (itemHrefSpec resources) := by
  induction items with
  | nil => rfl
  | cons item rest ih =>
    rw [List.findSome?_cons]
    unfold scanItems itemHrefSpec
    cases hrid : truthyStr item.resourceId with
    | none => simpa [hrid] using ih
    | some rid =>
      simp only [hrid, Option.some_bind]
      cases hf : resources.find? fun r => r.identifier == rid with
      | none => simpa [hf] using ih
      | some r =>
        simp only [hf, Option.some_bind]
        cases hh : truthyStr r.href with
        | none => simpa [hh] using ih
        | some h => simp [hh]

theorem scanOrgs_eq (resources : List ResourceData) (orgs : List OrganizationData) :
    scanOrgs resources orgs =
      (orgs.flatMap OrganizationData.items).findSome? (itemHrefSpec resources) := by
  induction orgs with
  | nil => rfl
  | cons org rest ih =>
    rw [List.flatMap_cons, List.findSome?_append]
    unfold scanOrgs
    rw [scanItems_eq, ih]
    cases (org.items).findSome? (itemHrefSpec resources) with
    | none => simp [Option.or]
    | some h => simp [Option.or]

theorem scanScoResources_eq (resources : List ResourceData) :
    scanScoResources resources =
      resources.findSome? fun r => if isScoType r then truthyStr r.href else none := by
  induction resources with
  | nil => rfl
  | cons r rest ih =>
    rw [List.findSome?_cons]
    unfold scanScoResources
    cases hh : truthyStr r.href with
    | none =>
      cases hs : isScoType r <;> simpa [hh, hs] using ih
    | some h =>
      cases hs : isScoType r
      · simpa [hh, hs] using ih
      · simp [hh, hs]

theorem lastFallback_eq (resources : List ResourceData) (d : Str) :
    (match resources.find? fun r => (truthyStr r.href).isSome with
      | some r => (truthyStr r.href).getD d
      | none => d) =
      (resources.findSome? fun r => truthyStr r.href).getD d := by
  induction resources with
  | nil => rfl
  | cons r rest ih =>
    rw [List.findSome?_cons]
    cases hh : truthyStr r.href with
    | none => simpa [List.find?, hh] using ih
    | some h => simp [List.find?, hh]

/-- C8: launch-path resolution matches the spec's description exactly: first item in
document order across organizations whose referenced resource has an href, else first
`sco`-typed (case-insensitive) resource with an href, else first resource with an
href, else the literal `index.html`. -/
theorem findLaunchPath_eq_spec (organizations : List OrganizationData)
    (resources : List ResourceData) :
    findLaunchPath organizations resources = findLaunchPathSpec organizations resources := by
  unfold findLaunchPath findLaunchPathSpec
  rw [← scanOrgs_eq, ← scanScoResources_eq]
  cases scanOrgs resources organizations with
  | some h => rfl
  | none =>
    cases hsco : scanScoResources resources with
    | some h => rfl
    | none => simpa using lastFallback_eq resources (str "index.html")

theorem isPre_length_lt {pat l : Str} (h : l.length < pat.length) : isPre pat l = false := by
  induction pat generalizing l with
  | nil => simp at h
  | cons a as ih =>
    cases l with
    | nil => rfl
    | cons b bs =>
      simp only [isPre, Bool.and_eq_false_imp]
      exact fun _ => ih (Nat.lt_of_succ_lt_succ h)

theorem isPre_append_left {pat A B : Str} (h : pat.length ≤ A.length) :
    isPre pat (A ++ B) = isPre pat A := by
  induction pat generalizing A with
  | nil => rfl
  | cons a as ih =>
    cases A with
    | nil => simp at h
    | cons x xs =>
      simp only [List.cons_append, isPre, List.append_eq]
      rw [ih (Nat.le_of_succ_le_succ h)]

theorem isPre_trans_short {pat s B : Str} (h : isPre pat (s ++ B) = true)
    (hs : s.length ≤ pat.length) : isPre s pat = true := by
  induction s generalizing pat B with
  | nil => rfl
  | cons x xs ih =>
    cases pat with
    | nil => simp at hs
    | cons a as =>
      simp only [List.cons_append, isPre, Bool.and_eq_true] at h ⊢
      obtain ⟨hax, h2⟩ := h
      exact ⟨by simp [eq_of_beq hax], ih h2 (Nat.le_of_succ_le_succ hs)⟩

theorem countOcc_nil (pat : Str) : countOcc pat [] = 0 := rfl

theorem countOcc_cons (pat : Str) (a : Char) (l : Str) :
    countOcc pat (a :: l) = countOcc pat l + (if isPre pat (a :: l) then 1 else 0) := by
  unfold countOcc
  rw [List.length_cons, List.range_succ_eq_map, List.countP_cons, List.countP_map]
  rfl

theorem noStraddle_cons {pat : Str} {a : Char} {A : Str} (h : noStraddle pat (a :: A)) :
    noStraddle pat A := by
  intro k hk1 hk2 hk3
  have h2 := h k hk1 hk2 (Nat.le_succ_of_le hk3)
  rwa [List.length_cons, show A.length + 1 - k = (A.length - k) + 1 by omega,
    List.drop_succ_cons] at h2

theorem countOcc_append (pat : Str) : ∀ A B : Str, noStraddle pat A →
    countOcc pat (A ++ B) = countOcc pat A + countOcc pat B := by
  intro A
  induction A with
  | nil => intro B _; simp [countOcc_nil]
  | cons a A ih =>
    intro B hA
    rw [List.cons_append, countOcc_cons, countOcc_cons, ih B (noStraddle_cons hA)]
    have heq : isPre pat (a :: (A ++ B)) = isPre pat (a :: A) := by
      by_cases hlen : pat.length ≤ (a :: A).length
      · have h2 := isPre_append_left (B := B) hlen
        simpa using h2
      · push_neg at hlen
        rw [isPre_length_lt hlen]
        by_cases hp : isPre pat (a :: (A ++ B)) = true
        · have hshort : isPre (a :: A) pat = true :=
            isPre_trans_short (by simpa using hp) (Nat.le_of_lt hlen)
          have hfalse := hA (a :: A).length hlen (Nat.succ_pos _) (Nat.le_refl _)
          rw [Nat.sub_self, List.drop_zero] at hfalse
          rw [hshort] at hfalse
          exact absurd hfalse (by simp)
        · simpa using hp
    rw [heq]
    omega

theorem head_mem_of_drop_eq_cons {t : Str} {n : Nat} {x : Char} {xs : Str}
    (h : t.drop n = x :: xs) : x ∈ t :=
  (List.drop_subset n t) (h ▸ List.mem_cons_self x xs)

theorem noStraddle_of_not_mem {c : Char} {pt t : Str} (h : c ∉ t) :
    noStraddle (c :: pt) t := by
  intro k hk1 hk2 hk3
  cases hd : t.drop (t.length - k) with
  | nil =>
    have hlen : (t.drop (t.length - k)).length = k := by
      rw [List.length_drop]; omega
    rw [hd] at hlen
    simp at hlen
    omega
  | cons x xs =>
    have hx : x ∈ t := head_mem_of_drop_eq_cons hd
    have hne : x ≠ c := fun he => h (he ▸ hx)
    simp [isPre, hne]

theorem countOcc_of_not_mem {c : Char} {pt t : Str} (h : c ∉ t) :
    countOcc (c :: pt) t = 0 := by
  unfold countOcc
  rw [List.countP_eq_zero]
  intro i hi
  cases hd : t.drop i with
  | nil => simp [isPre]
  | cons x xs =>
    have hx : x ∈ t := head_mem_of_drop_eq_cons hd
    have hne : c ≠ x := fun he => h (he ▸ hx)
    simp [isPre, hne]

theorem mem_replaceAllChar {x c : Char} {rep l : Str}
    (h : x ∈ replaceAllChar c rep l) : x ∈ rep ∨ (x ∈ l ∧ x ≠ c) := by
  unfold replaceAllChar at h
  rw [List.mem_flatMap] at h
  obtain ⟨a, ha, hx⟩ := h
  by_cases hac : a = c
  · rw [if_pos (by simp [hac])] at hx
    exact Or.inl hx
  · rw [if_neg (by simp [hac])] at hx
    rw [List.mem_singleton] at hx
    exact Or.inr ⟨hx ▸ ha, hx ▸ hac⟩

theorem lt_not_mem_escapeXml (l : Str) : '<' ∉ escapeXml l := by
  intro h
  unfold escapeXml at h
  rcases mem_replaceAllChar h with h | ⟨h, -⟩
  · exact absurd h (by decide)
  rcases mem_replaceAllChar h with h | ⟨h, -⟩
  · exact absurd h (by decide)
  rcases mem_replaceAllChar h with h | ⟨h, -⟩
  · exact absurd h (by decide)
  rcases mem_replaceAllChar h with h | ⟨-, hne⟩
  · exact absurd h (by decide)
  · exact hne rfl

theorem lt_not_mem_natStr (n : Nat) : '<' ∉ natStr n := by
  unfold natStr
  by_cases h : n = 0
  · rw [if_pos h]
    decide
  · rw [if_neg h]
    intro hc
    rw [List.mem_map] at hc
    obtain ⟨d, hd, hEq⟩ := hc
    rw [List.mem_reverse] at hd
    have hlt : d < 10 := Nat.digits_lt_base (by norm_num) hd
    interval_cases d <;> exact absurd hEq (by decide)

theorem countOcc_generateManifest (now : Nat) (title : Str) (pt : Str)
    (h1 : noStraddle ('<' :: pt) man1) (h2 : noStraddle ('<' :: pt) man2)
    (h3 : noStraddle ('<' :: pt) man3)
    (c1 : countOcc ('<' :: pt) man1 = 0) (c2 : countOcc ('<' :: pt) man2 = 0)
    (c3 : countOcc ('<' :: pt) man3 = 0) (c4 : countOcc ('<' :: pt) man4 = 1) :
    countOcc ('<' :: pt) (generateManifest now title) = 1 := by
  have hdigN : noStraddle ('<' :: pt) (natStr now) :=
    noStraddle_of_not_mem (lt_not_mem_natStr now)
  have hdigC : countOcc ('<' :: pt) (natStr now) = 0 :=
    countOcc_of_not_mem (lt_not_mem_natStr now)
  have hescN : noStraddle ('<' :: pt) (escapeXml title) :=
    noStraddle_of_not_mem (lt_not_mem_escapeXml title)
  have hescC : countOcc ('<' :: pt) (escapeXml title) = 0 :=
    countOcc_of_not_mem (lt_not_mem_escapeXml title)
  unfold generateManifest
  simp only [List.append_assoc]
  rw [countOcc_append _ _ _ h1, countOcc_append _ _ _ hdigN, countOcc_append _ _ _ h2,
    countOcc_append _ _ _ hescN, countOcc_append _ _ _ h3, countOcc_append _ _ _ hescN,
    c1, c2, c3, c4, hdigC, hescC]

/-- C9: the dispatch archive holds exactly the entries `imsmanifest.xml` and
`launcher.html`; the manifest declares a single resource (`<resource ` occurs once)
and that resource is the full `res_1` tag with `href="launcher.html"`; the title is
interpolated XML-escaped; and the launcher embeds the launch URL as the string
literal `var launchUrl = '...';` transformed only by `escapeJs`. -/
theorem generateDispatchPackage_contents (now : Nat) (title url : Str) :
    (generateDispatchPackage now title url).map Prod.fst =
      [str "imsmanifest.xml", str "launcher.html"] ∧
    countOcc (str "<resource ") (generateManifest now title) = 1 ∧
    countOcc (str "<resource identifier=\"res_1\" type=\"webcontent\" adlcp:scormtype=\"sco\" href=\"launcher.html\">")
      (generateManifest now title) = 1 ∧
    (∃ p1 p2 p3, generateManifest now title =
      p1 ++ escapeXml title ++ p2 ++ escapeXml title ++ p3) ∧
    (∃ pre post, generateLauncher url =
      pre ++ (str "var launchUrl = " ++ [apos] ++ escapeJs url ++ [apos, ';']) ++ post) := by
  refine ⟨rfl, ?_, ?_, ?_, ?_⟩
  · rw [show str "<resource " = '<' :: str "resource " from rfl]
    exact countOcc_generateManifest now title _ (by decide) (by decide) (by decide)
      (by decide) (by decide) (by decide) (by decide)
  · rw [show str "<resource identifier=\"res_1\" type=\"webcontent\" adlcp:scormtype=\"sco\" href=\"launcher.html\">"
        = '<' :: str "resource identifier=\"res_1\" type=\"webcontent\" adlcp:scormtype=\"sco\" href=\"launcher.html\">"
      from rfl]
    exact countOcc_generateManifest now title _ (by decide) (by decide) (by decide)
      (by decide) (by decide) (by decide) (by decide)
  · exact ⟨man1 ++ natStr now ++ man2, man3, man4, by simp [generateManifest, List.append_assoc]⟩
  · exact ⟨lau1, lau2, rfl⟩

/-- C7 (amended): the POX envelope's `textString` is exactly
`toFixed(2)` of `Math.max(0, Math.min(1, score))`: the score clamped to [0,1] and
formatted to two decimal places whenever the score is a number, but the literal
`NaN` when the score is NaN (a reachable input: the commit handler forwards the raw
normalized score, checking only that it is non-null); and the passback raises a
grade-passback error exactly when the HTTP status is not 2xx or the 2xx body lacks
the literal success marker. -/
theorem gradePassback_envelope_and_failure (sid mid : Str) (score : JsNum)
    (status : Nat) (body : Str) :
    (∃ pre post, buildReplaceResultXml sid score mid =
      pre ++ (str "<textString>" ++ jsToFixed2N (jsClamp01 score) ++
        str "</textString>") ++ post) ∧
    (∀ q, score = JsNum.num q →
      jsToFixed2N (jsClamp01 score) = jsToFixed2 (clamp01 q) ∧
      0 ≤ clamp01 q ∧ clamp01 q ≤ 1) ∧
    (score = JsNum.nan → jsToFixed2N (jsClamp01 score) = str "NaN") ∧
    (isOkB (gradePassbackOutcome status body) = false ↔
      ¬(200 ≤ status ∧ status ≤ 299) ∨ containsSub successMarker body = false) := by
  refine ⟨⟨pox1 ++ escapeXml mid ++ pox2 ++ escapeXml sid ++ pox3, pox4, rfl⟩,
    fun q hq => ?_, fun hq => by rw [hq]; rfl, ?_⟩
  · subst hq
    exact ⟨rfl, le_max_left 0 _, max_le (by norm_num) (min_le_left 1 q)⟩
  · by_cases hok : 200 ≤ status ∧ status ≤ 299
    · by_cases hm : containsSub successMarker body = false
      · simp [gradePassbackOutcome, isOkB, hok, hm]
      · simp [gradePassbackOutcome, isOkB, hok, hm]
    · simp [gradePassbackOutcome, isOkB, hok]

/-- C7 counterexample: with a NaN score — which the commit handler does forward to
grade passback — the envelope's unique `textString` field holds the literal `NaN`,
which contains no decimal point and so is not any value formatted to two decimal
places as the claim states. -/
theorem gradePassback_nan_textString :
    containsSub (str "<textString>NaN</textString>")
      (buildReplaceResultXml (str "sid") JsNum.nan (str "mid")) = true ∧
    countOcc (str "<textString>")
      (buildReplaceResultXml (str "sid") JsNum.nan (str "mid")) = 1 ∧
    jsClamp01 JsNum.nan = JsNum.nan ∧
    '.' ∉ str "NaN" := by
  refine ⟨by decide, by decide, rfl, by decide⟩

theorem gradePassback_envelope_and_failure_witness :
    (∃ pre post, buildReplaceResultXml (str "sid") (JsNum.num (mkRat 1 2)) (str "mid") =
      pre ++ (str "<textString>" ++ jsToFixed2 (clamp01 (mkRat 1 2)) ++
        str "</textString>") ++ post) ∧
    jsToFixed2N (jsClamp01 JsNum.nan) = str "NaN" ∧
    (isOkB (gradePassbackOutcome 200 successMarker) = false ↔
      ¬(200 ≤ 200 ∧ 200 ≤ 299) ∨ containsSub successMarker successMarker = false) := by
  have h1 := gradePassback_envelope_and_failure (str "sid") (str "mid")
    (JsNum.num (mkRat 1 2)) 200 successMarker
  have h2 := gradePassback_envelope_and_failure (str "sid") (str "mid")
    JsNum.nan 200 successMarker
  obtain ⟨pre, post, hdecomp⟩ := h1.1
  refine ⟨⟨pre, post, ?_⟩, h2.2.2.1 rfl, h1.2.2.2⟩
  rw [hdecomp, (h1.2.1 (mkRat 1 2) rfl).1]

/-- C5 (amended): the persisted score is `(parseFloat(raw)/parseFloat(max)) * 100`
whenever `cmi.core.score.raw` is present — in particular `(raw/max)*100` when both
parse as numbers and max is nonzero — and null exactly when raw is absent (a present
non-numeric raw persists NaN, not null); completion is `completed` exactly for lesson
status `completed`/`passed` and `incomplete` otherwise; success is `passed`/`failed`
for those lesson statuses and unset otherwise. -/
theorem commit_score_status_mapping (cmi : CmiData) :
    (cmi.scoreRaw = none → commitPersistedScore cmi = none) ∧
    (∀ r qr qm, cmi.scoreRaw = some r → parseFloat r = JsNum.num qr →
      parseFloat (commitScoreMax cmi) = JsNum.num qm → qm ≠ 0 →
      commitPersistedScore cmi = some (JsNum.num (qr / qm * 100))) ∧
    (commitCompletionStatus cmi = str "completed" ↔
      truthyStr cmi.lessonStatus = some (str "completed") ∨
      truthyStr cmi.lessonStatus = some (str "passed")) ∧
    (commitCompletionStatus cmi = str "completed" ∨
      commitCompletionStatus cmi = str "incomplete") ∧
    (commitSuccessStatus cmi = some (str "passed") ↔
      truthyStr cmi.lessonStatus = some (str "passed")) ∧
    (commitSuccessStatus cmi = some (str "failed") ↔
      truthyStr cmi.lessonStatus = some (str "failed")) ∧
    (truthyStr cmi.lessonStatus ≠ some (str "passed") →
      truthyStr cmi.lessonStatus ≠ some (str "failed") →
      commitSuccessStatus cmi = none) := by
  have hc_eq : ∀ ls, truthyStr cmi.lessonStatus = some ls →
      commitCompletionStatus cmi =
        if ls = str "completed" ∨ ls = str "passed" then str "completed"
        else str "incomplete" := by
    intro ls h
    unfold commitCompletionStatus
    rw [h]
  have hc_none : truthyStr cmi.lessonStatus = none →
      commitCompletionStatus cmi = str "incomplete" := by
    intro h
    unfold commitCompletionStatus
    rw [h]
  have hs_eq : ∀ ls, truthyStr cmi.lessonStatus = some ls →
      commitSuccessStatus cmi =
        if ls = str "passed" then some (str "passed")
        else if ls = str "failed" then some (str "failed") else none := by
    intro ls h
    unfold commitSuccessStatus
    rw [h]
  have hs_none : truthyStr cmi.lessonStatus = none → commitSuccessStatus cmi = none := by
    intro h
    unfold commitSuccessStatus
    rw [h]
  refine ⟨fun h => ?_, fun r qr qm hr hqr hqm hm0 => ?_, ?_, ?_, ?_, ?_, fun h1 h2 => ?_⟩
  · simp [commitPersistedScore, commitNormalizedScore, h]
  · simp only [commitPersistedScore, commitNormalizedScore, hr, hqr, hqm]
    simp [jsDiv, jsMul100, hm0]
  · cases hls : truthyStr cmi.lessonStatus with
    | none =>
      rw [hc_none hls]
      exact iff_of_false (by decide) (by rintro (h | h) <;> exact Option.noConfusion h)
    | some ls =>
      rw [hc_eq ls hls]
      by_cases hc : ls = str "completed" ∨ ls = str "passed"
      · rw [if_pos hc]
        refine iff_of_true rfl ?_
        rcases hc with hc | hc
        · exact Or.inl (by rw [hc])
        · exact Or.inr (by rw [hc])
      · rw [if_neg hc]
        push_neg at hc
        refine iff_of_false (by decide) ?_
        rintro (h | h)
        · exact hc.1 (Option.some.inj h)
        · exact hc.2 (Option.some.inj h)
  · cases hls : truthyStr cmi.lessonStatus with
    | none => exact Or.inr (hc_none hls)
    | some ls =>
      rw [hc_eq ls hls]
      by_cases hc : ls = str "completed" ∨ ls = str "passed"
      · rw [if_pos hc]
        exact Or.inl rfl
      · rw [if_neg hc]
        exact Or.inr rfl
  · cases hls : truthyStr cmi.lessonStatus with
    | none => rw [hs_none hls]
    | some ls =>
      rw [hs_eq ls hls]
      by_cases hp : ls = str "passed"
      · rw [if_pos hp]
        exact iff_of_true rfl (by rw [hp])
      · rw [if_neg hp]
        by_cases hf : ls = str "failed"
        · rw [if_pos hf]
          exact iff_of_false (by decide) fun h => hp (Option.some.inj h)
        · rw [if_neg hf]
          exact iff_of_false (fun h => Option.noConfusion h) fun h => hp (Option.some.inj h)
  · cases hls : truthyStr cmi.lessonStatus with
    | none => rw [hs_none hls]
    | some ls =>
      rw [hs_eq ls hls]
      by_cases hp : ls = str "passed"
      · rw [if_pos hp]
        refine iff_of_false (by decide) fun h => ?_
        rw [hp] at h
        exact absurd h (by decide)
      · rw [if_neg hp]
        by_cases hf : ls = str "failed"
        · rw [if_pos hf]
          exact iff_of_true rfl (by rw [hf])
        · rw [if_neg hf]
          exact iff_of_false (fun h => Option.noConfusion h) fun h => hf (Option.some.inj h)
  · cases hls : truthyStr cmi.lessonStatus with
    | none => exact hs_none hls
    | some ls =>
      rw [hls] at h1 h2
      rw [hs_eq ls hls, if_neg (fun he => h1 (by rw [he])),
        if_neg (fun he => h2 (by rw [he]))]

/-- C5 counterexample: `cmi.core.score.raw = "abc"` is present but non-numeric; the
claim says the persisted score is null, but the code persists
`(parseFloat("abc")/100)*100 = NaN`. -/
theorem commit_score_non_numeric_not_null :
    commitPersistedScore cmiBadScore = some JsNum.nan ∧
    commitPersistedScore cmiBadScore ≠ none := by
  refine ⟨by decide, by decide⟩

theorem commit_score_status_mapping_witness :
    commitPersistedScore cmi80 = some (JsNum.num 80) ∧
    commitCompletionStatus cmi80 = str "completed" ∧
    commitSuccessStatus cmi80 = some (str "passed") := by
  have h := commit_score_status_mapping cmi80
  refine ⟨?_, ?_, ?_⟩
  · have h2 := h.2.1 (str "80") (mkRat 80 1) (mkRat 100 1) rfl (by decide) (by decide)
      (by decide)
    rw [h2, show mkRat 80 1 / mkRat 100 1 * 100 = (80 : ℚ) by
      rw [Rat.mkRat_eq_div, Rat.mkRat_eq_div]
      norm_num]
  · exact (h.2.2.1).mpr (Or.inr (by decide))
  · exact (h.2.2.2.2.1).mpr (by decide)

/-- C6: on a database with no attempt rows, a commit or finish naming attempt id
`A1` responds 200 `{success: true}` and changes nothing — not the 404 typed error
the claim (and the spec's error model, followed by the GET endpoint) requires. -/
theorem commit_finish_unknown_attempt_reports_success :
    (commitHandler ⟨[], []⟩ (str "A1") cmiEmpty).response = ApiResponse.jsonSuccess ∧
    (commitHandler ⟨[], []⟩ (str "A1") cmiEmpty).db = ⟨[], []⟩ ∧
    (finishHandler ⟨[], []⟩ (str "A1")).2 = ApiResponse.jsonSuccess ∧
    getAttemptHandler ⟨[], []⟩ (str "A1") =
      ApiResponse.jsonError 404 (str "Attempt not found") := by
  refine ⟨rfl, rfl, rfl, rfl⟩

theorem buildStatementResult_success (d : XapiStatementData) (b : Bool)
    (h : d.success = some b) :
    ∃ res, buildStatementResult d = some res ∧ res.success = some b := by
  unfold buildStatementResult
  rw [h]
  cases hs : d.score <;> by_cases hv : d.verb = str "completed" <;>
    cases hd : truthyStr d.duration <;> simp [hv]

/-- C10: every xAPI statement the commit handler sends (dispatch-typed launch) carries
`success: successStatus === 'passed'` as a present boolean, and `buildStatement`
therefore emits a result object whose `success` field is present — `false`, not
omitted, whenever the derived success status is unset. -/
theorem commit_xapi_success_always_present (db : Db) (attemptId : Str) (cmi : CmiData)
    (s : XapiStatementData) (hs : s ∈ (commitHandler db attemptId cmi).xapiSent) :
    s.success = some (decide (commitSuccessStatus cmi = some (str "passed"))) ∧
    ∃ res, buildStatementResult s = some res ∧
      res.success = some (decide (commitSuccessStatus cmi = some (str "passed"))) ∧
      (commitSuccessStatus cmi = none → res.success = some false) := by
  have hmem : s = commitXapiData cmi := by
    simp only [commitHandler] at hs
    unfold commitXapiSent at hs
    cases hl : commitLaunch db attemptId cmi with
    | none =>
      rw [hl] at hs
      simp at hs
    | some l =>
      rw [hl] at hs
      by_cases hd : l.launchDataType = some (str "dispatch")
      · simp [hd] at hs
        exact hs
      · simp [hd] at hs
  subst hmem
  refine ⟨rfl, ?_⟩
  obtain ⟨res, hres, hsuc⟩ := buildStatementResult_success (commitXapiData cmi)
    (decide (commitSuccessStatus cmi = some (str "passed"))) rfl
  refine ⟨res, hres, hsuc, fun hnone => ?_⟩
  rw [hsuc, hnone]
  simp

theorem commit_xapi_success_always_present_witness :
    (commitXapiData cmiEmpty).success = some false ∧
    ∃ res, buildStatementResult (commitXapiData cmiEmpty) = some res ∧
      res.success = some false := by
  have h := commit_xapi_success_always_present dbD (str "A1") cmiEmpty
    (commitXapiData cmiEmpty) (by decide)
  have hf : (decide (commitSuccessStatus cmiEmpty = some (str "passed"))) = false := by
    decide
  obtain ⟨h1, res, h2, h3, -⟩ := h
  rw [hf] at h1 h3
  exact ⟨h1, res, h2, h3⟩

theorem find?_congrP {α : Type} {p q : α → Bool} :
    ∀ l : List α, (∀ a ∈ l, p a = q a) → l.find? p = l.find? q := by
  intro l
  induction l with
  | nil => exact fun _ => rfl
  | cons x xs ih =>
    intro h
    rw [List.find?_cons, List.find?_cons, h x (List.mem_cons_self x xs),
      ih fun a ha => h a (List.mem_cons_of_mem x ha)]

theorem openPred_cons_fresh (nl : LaunchRec) (ls : List LaunchRec) (u c : Str)
    (a : AttemptRec) (h : a.launchId ≠ nl.id) :
    openPred (nl :: ls) u c a = openPred ls u c a := by
  unfold openPred
  rw [List.find?_cons_of_neg _ (by simp; exact fun he => h he.symm)]

theorem openAttempts_cons_fresh (db : Db) (nl : LaunchRec) (u c : Str)
    (hfresh : ∀ a ∈ db.attempts, a.launchId ≠ nl.id) :
    openAttempts ⟨nl :: db.launches, db.attempts⟩ u c = openAttempts db u c := by
  unfold openAttempts
  exact List.filter_congr fun a ha =>
    openPred_cons_fresh nl db.launches u c a (hfresh a ha)

theorem findOpenAttempt_cons_fresh (db : Db) (nl : LaunchRec) (u c : Str)
    (hfresh : ∀ a ∈ db.attempts, a.launchId ≠ nl.id) :
    findOpenAttempt ⟨nl :: db.launches, db.attempts⟩ u c = findOpenAttempt db u c := by
  unfold findOpenAttempt
  exact find?_congrP _ fun a ha =>
    openPred_cons_fresh nl db.launches u c a (hfresh a ha)

/-- C4 (amended): the launch handler always inserts a new Launch row; it reuses the
most recent open attempt of the (learner, course) pair when one exists and creates a
new Attempt exactly otherwise; given fresh launch ids, the at-most-one-open-attempt
invariant per (learner, course) is preserved. -/
theorem lti_launch_attempt_establishment (db : Db) (cid kid uid : Str)
    (ctx rl ou rs : Option Str) (nlid naid : Str)
    (hfresh : ∀ a ∈ db.attempts, a.launchId ≠ nlid) :
    (ltiLaunchAttemptPhase db cid kid uid ctx rl ou rs nlid naid).1.launches.length =
      db.launches.length + 1 ∧
    (∀ a, findOpenAttempt db uid kid = some a →
      (ltiLaunchAttemptPhase db cid kid uid ctx rl ou rs nlid naid).1.attempts =
        db.attempts ∧
      (ltiLaunchAttemptPhase db cid kid uid ctx rl ou rs nlid naid).2 = a.id) ∧
    (findOpenAttempt db uid kid = none →
      ∃ na, (ltiLaunchAttemptPhase db cid kid uid ctx rl ou rs nlid naid).1.attempts =
          na :: db.attempts ∧ na.id = naid ∧ na.launchId = nlid ∧
        na.finished = false ∧
        (ltiLaunchAttemptPhase db cid kid uid ctx rl ou rs nlid naid).2 = naid) ∧
    ((∀ u c, (openAttempts db u c).length ≤ 1) → ∀ u c,
      (openAttempts (ltiLaunchAttemptPhase db cid kid uid ctx rl ou rs nlid naid).1
        u c).length ≤ 1) := by
  have hfresh' : ∀ a ∈ db.attempts,
      a.launchId ≠ (newLaunchRec cid kid uid ctx rl ou rs nlid).id := hfresh
  have hfo : findOpenAttempt
      ⟨newLaunchRec cid kid uid ctx rl ou rs nlid :: db.launches, db.attempts⟩
      uid kid = findOpenAttempt db uid kid :=
    findOpenAttempt_cons_fresh db _ uid kid hfresh'
  cases hres : findOpenAttempt db uid kid with
  | some a =>
    have happ : ltiLaunchAttemptPhase db cid kid uid ctx rl ou rs nlid naid =
        (⟨newLaunchRec cid kid uid ctx rl ou rs nlid :: db.launches, db.attempts⟩,
         a.id) := by
      simp only [ltiLaunchAttemptPhase]
      rw [hfo, hres]
    rw [happ]
    refine ⟨by simp, fun a2 ha2 => ?_, fun hn => ?_, fun hinv u c => ?_⟩
    · exact ⟨rfl, by rw [Option.some.inj ha2]⟩
    · exact Option.noConfusion hn
    · rw [openAttempts_cons_fresh db _ u c hfresh']
      exact hinv u c
  | none =>
    have happ : ltiLaunchAttemptPhase db cid kid uid ctx rl ou rs nlid naid =
        (⟨newLaunchRec cid kid uid ctx rl ou rs nlid :: db.launches,
          newAttemptRec naid nlid :: db.attempts⟩, naid) := by
      simp only [ltiLaunchAttemptPhase]
      rw [hfo, hres]
    rw [happ]
    refine ⟨by simp, fun a2 ha2 => ?_, fun _ => ?_, fun hinv u c => ?_⟩
    · exact Option.noConfusion ha2
    · exact ⟨newAttemptRec naid nlid, rfl, rfl, rfl, rfl, rfl⟩
    · have hpredna : openPred
          (newLaunchRec cid kid uid ctx rl ou rs nlid :: db.launches) u c
          (newAttemptRec naid nlid) =
          (decide (uid = u) && decide (kid = c)) := by
        unfold openPred newLaunchRec newAttemptRec
        simp
      have htail : List.filter
          (openPred (newLaunchRec cid kid uid ctx rl ou rs nlid :: db.launches) u c)
          db.attempts = openAttempts db u c :=
        openAttempts_cons_fresh db _ u c hfresh'
      unfold openAttempts
      rw [List.filter_cons, hpredna, htail]
      by_cases huc : uid = u ∧ kid = c
      · rw [if_pos (by simp [huc.1, huc.2])]
        have hempty : openAttempts db u c = [] := by
          unfold openAttempts
          rw [List.filter_eq_nil_iff]
          intro a ha
          have := List.find?_eq_none.mp (huc.1 ▸ huc.2 ▸ hres) a ha
          simpa using this
        rw [hempty]
        simp
      · rw [if_neg (by simpa using fun h1 h2 => huc ⟨h1, h2⟩)]
        exact hinv u c

/-- C4 counterexample: an unfinished attempt for (u1, K1) exists, so by the claim no
new Launch record may be created; the handler inserts one anyway (two launch rows
afterwards) while correctly reusing attempt A1. -/
theorem lti_launch_always_inserts_launch :
    findOpenAttempt dbL (str "u1") (str "K1") = some attemptL ∧
    (ltiLaunchAttemptPhase dbL (str "C1") (str "K1") (str "u1") none none none none
        (str "L2") (str "A2")).1.launches.length = 2 ∧
    (ltiLaunchAttemptPhase dbL (str "C1") (str "K1") (str "u1") none none none none
        (str "L2") (str "A2")).2 = str "A1" := by
  refine ⟨by decide, by decide, by decide⟩

theorem lti_launch_attempt_establishment_witness :
    (ltiLaunchAttemptPhase ⟨[], []⟩ (str "C1") (str "K1") (str "u1") none none none
        none (str "L1") (str "A1")).1.launches.length = 1 ∧
    (ltiLaunchAttemptPhase ⟨[], []⟩ (str "C1") (str "K1") (str "u1") none none none
        none (str "L1") (str "A1")).2 = str "A1" ∧
    ∀ u c, (openAttempts (ltiLaunchAttemptPhase ⟨[], []⟩ (str "C1") (str "K1")
        (str "u1") none none none none (str "L1") (str "A1")).1 u c).length ≤ 1 := by
  have h := lti_launch_attempt_establishment ⟨[], []⟩ (str "C1") (str "K1") (str "u1")
    none none none none (str "L1") (str "A1")
    (fun a ha => absurd ha (List.not_mem_nil a))
  obtain ⟨na, -, -, -, -, h5⟩ := h.2.2.1 rfl
  exact ⟨by simpa using h.1, h5,
    h.2.2.2 fun u c => by simp [openAttempts, Db.attempts]⟩

end ScormLti
